import Mathlib

/-
Verification development for the Medical-Portal repository.

We give a shallow embedding of the credential and registration subsystem:
`hash_password`, the validators (`validate_email`, `validate_password`,
`validate_pincode`, and the stricter `validators_validate_password` from
utils/validators.py), the in-memory user store (`UsersDb`), the store
operations (`save_user_to_db`, `check_user_exists`), the authentication
lookup (`authenticate_user`), and the registration flow of `signup_form`
(`signupErrors` / `register`).  Python dicts become Lean structures, the
two fixed role partitions become fields of `UsersDb`, in-place mutation
becomes explicit state passing, and `datetime.now()` becomes an explicit
`now : String` parameter.
-/

set_option maxRecDepth 4000

namespace Portal

/-! ## SHA-256 (hashlib.sha256(...).hexdigest())

`hash_password` in src/app.py and src/utils/auth.py is
`hashlib.sha256(password.encode()).hexdigest()`.  We implement SHA-256
(FIPS 180-4) on byte lists, with 32-bit words as `Nat` reduced mod 2^32,
and UTF-8 encoding for `str.encode()`. -/

/-- Truncate to a 32-bit word. -/
def m32 (x : Nat) : Nat := x % 4294967296

/-- Right rotation of a 32-bit word. -/
def rotr (n x : Nat) : Nat := m32 ((x >>> n) ||| (x <<< (32 - n)))

/-- Ch(e, f, g) from FIPS 180-4. -/
def ch (e f g : Nat) : Nat := (e &&& f) ^^^ ((e ^^^ 4294967295) &&& g)

/-- Maj(a, b, c) from FIPS 180-4. -/
def maj (a b c : Nat) : Nat := (a &&& b) ^^^ (a &&& c) ^^^ (b &&& c)

/-- Big sigma 0. -/
def bsig0 (x : Nat) : Nat := rotr 2 x ^^^ rotr 13 x ^^^ rotr 22 x

/-- Big sigma 1. -/
def bsig1 (x : Nat) : Nat := rotr 6 x ^^^ rotr 11 x ^^^ rotr 25 x

/-- Small sigma 0. -/
def ssig0 (x : Nat) : Nat := rotr 7 x ^^^ rotr 18 x ^^^ (x >>> 3)

/-- Small sigma 1. -/
def ssig1 (x : Nat) : Nat := rotr 17 x ^^^ rotr 19 x ^^^ (x >>> 10)

/-- The 64 SHA-256 round constants (FIPS 180-4, written in decimal). -/
def K256 : Array Nat := #[
  1116352408, 1899447441, 3049323471, 3921009573, 961987163,
  1508970993, 2453635748, 2870763221, 3624381080, 310598401,
  607225278, 1426881987, 1925078388, 2162078206, 2614888103,
  3248222580, 3835390401, 4022224774, 264347078, 604807628,
  770255983, 1249150122, 1555081692, 1996064986, 2554220882,
  2821834349, 2952996808, 3210313671, 3336571891, 3584528711,
  113926993, 338241895, 666307205, 773529912, 1294757372,
  1396182291, 1695183700, 1986661051, 2177026350, 2456956037,
  2730485921, 2820302411, 3259730800, 3345764771, 3516065817,
  3600352804, 4094571909, 275423344, 430227734, 506948616,
  659060556, 883997877, 958139571, 1322822218, 1537002063,
  1747873779, 1955562222, 2024104815, 2227730452, 2361852424,
  2428436474, 2756734187, 3204031479, 3329325298]

/-- State of eight 32-bit words: the hash value, and the working
variables a..h of the compression loop. -/
structure Hash8 where
  a : Nat
  b : Nat
  c : Nat
  d : Nat
  e : Nat
  f : Nat
  g : Nat
  h : Nat
deriving DecidableEq

/-- SHA-256 initial hash value (FIPS 180-4, written in decimal). -/
def H0 : Hash8 :=
  ⟨1779033703, 3144134277, 1013904242, 2773480762,
   1359893119, 2600822924, 528734635, 1541459225⟩

/-- One round of the SHA-256 compression function. -/
def round256 (s : Hash8) (k w : Nat) : Hash8 :=
  let t1 := m32 (s.h + bsig1 s.e + ch s.e s.f s.g + k + w)
  let t2 := m32 (bsig0 s.a + maj s.a s.b s.c)
  ⟨m32 (t1 + t2), s.a, s.b, s.c, m32 (s.d + t1), s.e, s.f, s.g⟩

/-- First 16 message-schedule words (big-endian) from a 64-byte block. -/
def initialSchedule (block : List Nat) : Array Nat :=
  ((List.range 16).map (fun i =>
    (block.getD (4 * i) 0) <<< 24 ||| (block.getD (4 * i + 1) 0) <<< 16 |||
    (block.getD (4 * i + 2) 0) <<< 8 ||| block.getD (4 * i + 3) 0)).toArray

/-- Extend the message schedule from 16 to 64 words. -/
def fullSchedule (ws : Array Nat) : Array Nat :=
  (List.range 48).foldl (fun w i =>
    w.push (m32 (ssig1 (w.getD (i + 14) 0) + w.getD (i + 9) 0 +
                 ssig0 (w.getD (i + 1) 0) + w.getD i 0))) ws

/-- Process one 64-byte block. -/
def compress (hv : Hash8) (block : List Nat) : Hash8 :=
  let w := fullSchedule (initialSchedule block)
  let s := (List.range 64).foldl (fun s i => round256 s (K256.getD i 0) (w.getD i 0)) hv
  ⟨m32 (hv.a + s.a), m32 (hv.b + s.b), m32 (hv.c + s.c), m32 (hv.d + s.d),
   m32 (hv.e + s.e), m32 (hv.f + s.f), m32 (hv.g + s.g), m32 (hv.h + s.h)⟩

/-- SHA-256 padding: append 0x80, zeros, and the 64-bit big-endian bit length. -/
def pad256 (msg : List Nat) : List Nat :=
  let l := msg.length
  let k := (64 + 56 - (l + 1) % 64) % 64
  let bits := 8 * l
  msg ++ [0x80] ++ List.replicate k 0 ++
    [bits >>> 56 % 256, bits >>> 48 % 256, bits >>> 40 % 256, bits >>> 32 % 256,
     bits >>> 24 % 256, bits >>> 16 % 256, bits >>> 8 % 256, bits % 256]

/-- Split a byte list into 64-byte blocks (structural recursion on a fuel
argument bounded by the list length). -/
def chunk64 (fuel : Nat) (l : List Nat) : List (List Nat) :=
  match fuel, l with
  | 0, _ => []
  | _, [] => []
  | f + 1, l => l.take 64 :: chunk64 f (l.drop 64)

/-- Lowercase hexadecimal digit for a value below 16. -/
def hexChar (n : Nat) : Char :=
  if n < 10 then Char.ofNat (48 + n) else Char.ofNat (87 + n)

/-- Eight lowercase hex characters of a 32-bit word, most significant first. -/
def wordHex (w : Nat) : List Char :=
  [hexChar (w >>> 28 &&& 15), hexChar (w >>> 24 &&& 15), hexChar (w >>> 20 &&& 15),
   hexChar (w >>> 16 &&& 15), hexChar (w >>> 12 &&& 15), hexChar (w >>> 8 &&& 15),
   hexChar (w >>> 4 &&& 15), hexChar (w &&& 15)]

/-- Hex digest of the final hash value (`hexdigest()`). -/
def digestHex (hv : Hash8) : String :=
  ⟨wordHex hv.a ++ wordHex hv.b ++ wordHex hv.c ++ wordHex hv.d ++
   wordHex hv.e ++ wordHex hv.f ++ wordHex hv.g ++ wordHex hv.h⟩

/-- SHA-256 of a byte list, rendered as a 64-character lowercase hex string. -/
def sha256hex (msg : List Nat) : String :=
  let padded := pad256 msg
  digestHex ((chunk64 padded.length padded).foldl compress H0)

/-- UTF-8 encoding of one character (`str.encode()` uses UTF-8). -/
def utf8Bytes (c : Char) : List Nat :=
  let n := c.toNat
  if n < 0x80 then [n]
  else if n < 0x800 then [0xc0 ||| (n >>> 6), 0x80 ||| (n &&& 0x3f)]
  else if n < 0x10000 then
    [0xe0 ||| (n >>> 12), 0x80 ||| (n >>> 6 &&& 0x3f), 0x80 ||| (n &&& 0x3f)]
  else
    [0xf0 ||| (n >>> 18), 0x80 ||| (n >>> 12 &&& 0x3f), 0x80 ||| (n >>> 6 &&& 0x3f),
     0x80 ||| (n &&& 0x3f)]

/-- UTF-8 bytes of a string. -/
def strBytes (s : String) : List Nat := (s.data.map utf8Bytes).flatten

/-- src/app.py `hash_password` (same function in src/utils/auth.py):
`hashlib.sha256(password.encode()).hexdigest()`. -/
def hash_password (password : String) : String := sha256hex (strBytes password)

/-! ## Validators (src/app.py lines 29-50; src/utils/val.py is utils/validators.py) -/

/-- Characters stripped by Python `str.strip()` (ASCII whitespace; the
exotic Unicode space characters Python also strips cannot occur in the
ASCII regexes at issue and are not modelled). -/
def isPySpace (c : Char) : Bool :=
  c == ' ' || c == '\t' || c == '\n' || c == '\r' || c == '\x0b' || c == '\x0c'

/-- Python `str.strip()` on a character list: drop leading and trailing
whitespace. -/
def pyStrip (cs : List Char) : List Char :=
  ((cs.dropWhile isPySpace).reverse.dropWhile isPySpace).reverse

/-- Character class `[a-zA-Z0-9._%+-]` (the local part of the email regex). -/
def isLocalChar (c : Char) : Bool :=
  c.isAlpha || c.isDigit || c == '.' || c == '_' || c == '%' || c == '+' || c == '-'

/-- Character class `[a-zA-Z0-9.-]` (the domain part of the email regex). -/
def isDomChar (c : Char) : Bool :=
  c.isAlpha || c.isDigit || c == '.' || c == '-'

/-- Matcher for the domain tail of the regex, `[a-zA-Z0-9.-]+\.[a-zA-Z]{2,}$`,
applied to the characters after the `@`.  Because the `{2,}` group is
all-alphabetic (hence dot-free) and must reach the end of the string, the
regex can only match by splitting at the LAST dot; we split there directly. -/
def matchDomain (ds : List Char) : Bool :=
  match ds.reverse.dropWhile (fun c => c != '.') with
  | [] => false
  | _ :: arev =>
    !arev.isEmpty && arev.all isDomChar &&
    decide (2 ≤ (ds.reverse.takeWhile (fun c => c != '.')).length) &&
    (ds.reverse.takeWhile (fun c => c != '.')).all Char.isAlpha

/-- Matcher for the anchored regex
`^[a-zA-Z0-9._%+-]+@[a-zA-Z0-9.-]+\.[a-zA-Z]{2,}$`.  Since `@` is not in
the local character class, `[a-zA-Z0-9._%+-]+@` can only match the maximal
local-class prefix followed by a literal `@`. -/
def matchEmail (cs : List Char) : Bool :=
  match cs.dropWhile isLocalChar with
  | c :: rest => c == '@' && !(cs.takeWhile isLocalChar).isEmpty && matchDomain rest
  | [] => false

/-- src/app.py `validate_email` (same code in src/utils/val.py, i.e.
utils/validators.py): `if not email: return False` then
`re.match(pattern, email.strip()) is not None` for the pattern above.
(`re.match` with `^...$` and a stripped subject is a full match: the `$`
newline exception is unreachable because `strip()` removes trailing
newlines.) -/
def validate_email (email : String) : Bool :=
  if email = "" then false else matchEmail (pyStrip email.data)

/-- src/app.py `validate_password` (letter+digit policy):
empty, then length < 6, then `re.search(r'[A-Za-z]')`, then
`re.search(r'[0-9]')`, else valid. -/
def validate_password (password : String) : Bool × String :=
  if password = "" then (false, "Password is required")
  else if password.length < 6 then (false, "Password must be at least 6 characters long")
  else if !password.data.any Char.isAlpha then (false, "Password must contain at least one letter")
  else if !password.data.any Char.isDigit then (false, "Password must contain at least one number")
  else (true, "Password is valid")

/-- The punctuation class of utils/validators.py, written by code point:
`! @ # $ % ^ & * ( ) _ + - = [ ] { } ; ' : " \ | , . < > / ?`. -/
def validatorsSpecialCodes : List Nat :=
  [33, 64, 35, 36, 37, 94, 38, 42, 40, 41, 95, 43, 45, 61, 91, 93, 123, 125,
   59, 39, 58, 34, 92, 124, 44, 46, 60, 62, 47, 63]

/-- src/utils/val.py (utils/validators.py) `validate_password`: the STRICT
policy — empty, length < 6, length > 128, uppercase required, lowercase
required, digit required, special character required.  This is the variant
imported by src/components/froms.py for its signup validation. -/
def validators_validate_password (password : String) : Bool × String :=
  if password = "" then (false, "Password is required")
  else if password.length < 6 then (false, "Password must be at least 6 characters long")
  else if password.length > 128 then (false, "Password must be no more than 128 characters long")
  else if !password.data.any Char.isUpper then (false, "Password must contain at least one uppercase letter")
  else if !password.data.any Char.isLower then (false, "Password must contain at least one lowercase letter")
  else if !password.data.any Char.isDigit then (false, "Password must contain at least one digit")
  else if !password.data.any (fun c => validatorsSpecialCodes.contains c.toNat) then
    (false, "Password must contain at least one special character")
  else (true, "Password is valid")

/-- Python `str.isdigit()` restricted to ASCII: true iff the string is
nonempty and every character is a decimal digit. -/
def pyIsDigit (s : String) : Bool := !s.isEmpty && s.data.all Char.isDigit

/-- src/app.py `validate_pincode`:
`pincode.isdigit() and len(pincode) in [5, 6]`. -/
def validate_pincode (pincode : String) : Bool :=
  pyIsDigit pincode && (pincode.length == 5 || pincode.length == 6)

/-! ### Python-level wrappers over an optional (`None`-able) argument

Python is dynamically typed: the UI may hand `None` to a validator.  We
model a Python `str`-or-`None` argument as `Option String` and an
uncaught exception as `Except.error`.  `validate_email(None)` and
`validate_password(None)` take the `if not ...` branch (both `None` and
`""` are falsy), but `validate_pincode(None)` evaluates
`None.isdigit()`, which raises `AttributeError`. -/

/-- src/app.py `validate_email` called on a Python `str | None` value. -/
def py_validate_email : Option String → Except String Bool
  | none => Except.ok false
  | some s => Except.ok (validate_email s)

/-- src/app.py `validate_password` called on a Python `str | None` value. -/
def py_validate_password : Option String → Except String (Bool × String)
  | none => Except.ok (false, "Password is required")
  | some s => Except.ok (validate_password s)

/-- src/app.py `validate_pincode` called on a Python `str | None` value:
on `None` the attribute access `None.isdigit` raises. -/
def py_validate_pincode : Option String → Except String Bool
  | none => Except.error "AttributeError: NoneType object has no attribute isdigit"
  | some s => Except.ok (validate_pincode s)

/-! ## Data model and user store (src/app.py) -/

/-- The two roles of the portal (`st.selectbox` offers exactly
"patient" and "doctor"); the store key is `f"{user_type}s"`. -/
inductive Role
  | patient
  | doctor
deriving DecidableEq

/-- The other role. -/
def Role.other : Role → Role
  | .patient => .doctor
  | .doctor => .patient

/-- The nested address dict `{line1, city, state, pincode}`. -/
structure Address where
  line1 : String
  city : String
  state : String
  pincode : String
deriving DecidableEq

/-- A stored user record (the dict appended to the store, after
`save_user_to_db` has added `user_id` and `created_at`).  `password`
holds the hex digest.  `profile_picture` is the optional base64 blob. -/
structure Account where
  user_type : Role
  first_name : String
  last_name : String
  username : String
  email : String
  password : String
  address : Address
  profile_picture : Option String
  user_id : Nat
  created_at : String
deriving DecidableEq

/-- A user dict as built by `signup_form` BEFORE `save_user_to_db` adds
`user_id` and `created_at`. -/
structure UserData where
  user_type : Role
  first_name : String
  last_name : String
  username : String
  email : String
  password : String
  address : Address
  profile_picture : Option String
deriving DecidableEq

/-- The session store `users_db`: a dict with the two partitions
`"patients"` and `"doctors"`. -/
structure UsersDb where
  patients : List Account
  doctors : List Account
deriving DecidableEq

/-- `users_db[f"{user_type}s"]` / `users_db.get(f"{user_type}s", [])`:
the partition of a role.  (Both partitions always exist in a store built
by `load_sample_data`, so `get`-with-default and direct indexing agree.) -/
def dbPartition (db : UsersDb) : Role → List Account
  | .patient => db.patients
  | .doctor => db.doctors

/-- Replace the partition of a role. -/
def setPartition (db : UsersDb) (r : Role) (l : List Account) : UsersDb :=
  match r with
  | .patient => ⟨l, db.doctors⟩
  | .doctor => ⟨db.patients, l⟩

/-- src/app.py `authenticate_user` (same code in src/utils/auth.py):
hash the supplied password, then return the first record of the role's
partition whose `email` equals the supplied email and whose stored
`password` digest equals the fresh hash; otherwise `None`. -/
def authenticate_user (db : UsersDb) (email password : String) (user_type : Role) :
    Option Account :=
  let hashed := hash_password password
  (dbPartition db user_type).find? (fun u => u.email == email && u.password == hashed)

/-- src/app.py `save_user_to_db`: set `created_at` to the current time,
set `user_id` to the partition length plus one, and append.  The Python
function mutates `user_data` and the store in place and returns `None`;
the embedding returns the new store together with the stored record. -/
def save_user_to_db (db : UsersDb) (ud : UserData) (user_type : Role) (now : String) :
    UsersDb × Account :=
  let acc : Account :=
    ⟨ud.user_type, ud.first_name, ud.last_name, ud.username, ud.email, ud.password,
     ud.address, ud.profile_picture, (dbPartition db user_type).length + 1, now⟩
  (setPartition db user_type (dbPartition db user_type ++ [acc]), acc)

/-- src/app.py `check_user_exists`:
`any(user['email'] == email for user in users)` over the role's partition. -/
def check_user_exists (db : UsersDb) (email : String) (user_type : Role) : Bool :=
  (dbPartition db user_type).any (fun u => u.email == email)

/-- src/app.py `load_sample_data`: the demo patient record
(id 1, digest of "password123"). -/
def johnAccount (now : String) : Account :=
  ⟨.patient, "John", "Doe", "johndoe", "john.doe@example.com",
   hash_password "password123",
   ⟨"123 Main Street", "New York", "NY", "10001"⟩, none, 1, now⟩

/-- src/app.py `load_sample_data`: the demo doctor record
(id 1, digest of "doctor123"). -/
def janeAccount (now : String) : Account :=
  ⟨.doctor, "Dr. Jane", "Smith", "drjanesmith", "jane.smith@hospital.com",
   hash_password "doctor123",
   ⟨"456 Medical Center", "Los Angeles", "CA", "90210"⟩, none, 1, now⟩

/-- src/app.py `load_sample_data`: the store a fresh session starts from
(`st.session_state.users_db = load_sample_data()`); `datetime.now()` is
the explicit `now` argument. -/
def load_sample_data (now : String) : UsersDb := ⟨[johnAccount now], [janeAccount now]⟩

/-! ## Registration (src/app.py `signup_form`, lines 376-434) -/

/-- The raw form fields handed to the submission handler of
`signup_form`. -/
structure RawSignup where
  user_type : Role
  first_name : String
  last_name : String
  username : String
  email : String
  password : String
  confirm_password : String
  address_line1 : String
  city : String
  state : String
  pincode : String
  profile_picture : Option String
  terms_accepted : Bool
deriving DecidableEq

/-- The required-fields check of `signup_form`:
`all([first_name, last_name, username, email, password, confirm_password,
address_line1, city, state, pincode])` — every listed string truthy
(nonempty). -/
def allFieldsFilled (f : RawSignup) : Bool :=
  f.first_name != "" && f.last_name != "" && f.username != "" && f.email != "" &&
  f.password != "" && f.confirm_password != "" && f.address_line1 != "" &&
  f.city != "" && f.state != "" && f.pincode != ""

/-- The error list accumulated by `signup_form` on submission, in source
order: required fields, terms, email syntax, password confirmation,
password strength, postal code (only when `pincode` is truthy), and the
duplicate-email check against the store. -/
def signupErrors (db : UsersDb) (f : RawSignup) : List String :=
  (if allFieldsFilled f then [] else ["All required fields must be filled"]) ++
  (if f.terms_accepted then [] else ["You must accept the Terms of Service"]) ++
  (if validate_email f.email then [] else ["Please enter a valid email address"]) ++
  (if f.password == f.confirm_password then [] else ["Passwords do not match"]) ++
  (if (validate_password f.password).1 then [] else [(validate_password f.password).2]) ++
  (if f.pincode != "" && !validate_pincode f.pincode then ["Postal code must be 5-6 digits"] else []) ++
  (if check_user_exists db f.email f.user_type then ["An account with this email already exists"] else [])

/-- The user dict built by `signup_form` when validation passes: the raw
fields with the password replaced by its hash and the address nested. -/
def signupUserData (f : RawSignup) : UserData :=
  ⟨f.user_type, f.first_name, f.last_name, f.username, f.email,
   hash_password f.password, ⟨f.address_line1, f.city, f.state, f.pincode⟩,
   f.profile_picture⟩

/-- The submission handler of `signup_form`: collect ALL errors; if any,
display them and leave the store untouched; otherwise build the user dict
and commit it with `save_user_to_db`.  Returns the displayed error list
and the resulting store. -/
def register (db : UsersDb) (f : RawSignup) (now : String) : List String × UsersDb :=
  let errors := signupErrors db f
  if errors.isEmpty then
    ([], (save_user_to_db db (signupUserData f) f.user_type now).1)
  else
    (errors, db)

/-- Fold a sequence of signup submissions over a store (each paired with
its submission time). -/
def registerAll (db : UsersDb) (ops : List (RawSignup × String)) : UsersDb :=
  ops.foldl (fun d p => (register d p.1 p.2).2) db

/-- Per-partition email uniqueness: no two accounts of one partition
share an email (the invariant of claim C3). -/
def EmailUniq (db : UsersDb) : Prop :=
  db.patients.Pairwise (fun a b => a.email ≠ b.email) ∧
  db.doctors.Pairwise (fun a b => a.email ≠ b.email)

/-- A concrete, fully valid patient signup (used by the scenario claims). -/
def alicePatientSignup : RawSignup :=
  ⟨.patient, "Alice", "Ayers", "alicea", "alice@mail.com", "abc123", "abc123",
   "1 Elm Street", "Springfield", "IL", "12345", none, true⟩

/-- A concrete, fully valid doctor signup (used by the scenario claims). -/
def bobDoctorSignup : RawSignup :=
  ⟨.doctor, "Bob", "Barnes", "bobb", "bob@clinic.org", "xyz789", "xyz789",
   "2 Oak Avenue", "Madison", "WI", "54321", none, true⟩

/-- A valid patient signup whose email carries surrounding whitespace
(the whitespace survives storage; only validation trims). -/
def spacedAliceSignup : RawSignup :=
  ⟨.patient, "Alice", "Ayers", "alicea", "  alice@mail.com  ", "abc123", "abc123",
   "1 Elm Street", "Springfield", "IL", "12345", none, true⟩

/-- Declarative reading of the documented email pattern (spec section 4.1):
the character list decomposes as `local-part ++ "@" ++ domain ++ "." ++ tld`
with a nonempty local part over `[A-Za-z0-9._%+-]`, a nonempty domain over
`[A-Za-z0-9.-]`, and a top-level segment of at least two alphabetic
characters.  Stated from the spec's words, to be compared with the
code-derived `validate_email`. -/
def EmailShape (cs : List Char) : Prop :=
  ∃ loc dom tld : List Char,
    cs = loc ++ '@' :: (dom ++ '.' :: tld) ∧
    loc ≠ [] ∧ (∀ c ∈ loc, isLocalChar c = true) ∧
    dom ≠ [] ∧ (∀ c ∈ dom, isDomChar c = true) ∧
    2 ≤ tld.length ∧ (∀ c ∈ tld, c.isAlpha = true)

/-- NIST test vector: SHA-256 of the empty message. -/
theorem sha256_empty_vector :
    hash_password "" = "e3b0c44298fc1c149afbf4c8996fb92427ae41e4649b934ca495991b7852b855" := by
  decide

/-- NIST test vector: SHA-256 of "abc". -/
theorem sha256_abc_vector :
    hash_password "abc" = "ba7816bf8f01cfea414140de5dae2223b00361a396177a9cb410ff61f20015ad" := by
  decide

/-! ## General lemmas about the embedding -/

/-- The digest has 64 characters for every input (eight words of eight
hex characters each). -/
theorem hash_password_length (x : String) : (hash_password x).length = 64 := rfl

/-- Hashing is deterministic: equal plaintexts yield equal digests. -/
theorem hash_password_deterministic (x y : String) (h : x = y) :
    hash_password x = hash_password y := by rw [h]

/-- Every character of a digest is a lowercase hexadecimal digit. -/
theorem hash_password_hex (x : String) :
    ∀ c ∈ (hash_password x).data, (c.isDigit || ('a' ≤ c && c ≤ 'f')) = true := by
  have hchar : ∀ n : Nat, n ≤ 15 →
      ((hexChar n).isDigit || ('a' ≤ hexChar n && hexChar n ≤ 'f')) = true := by
    intro n hn
    interval_cases n <;> decide
  intro c hc
  have hmem : ∀ w : Nat, c ∈ wordHex w →
      (c.isDigit || ('a' ≤ c && c ≤ 'f')) = true := by
    intro w hw
    simp only [wordHex, List.mem_cons, List.not_mem_nil, or_false] at hw
    rcases hw with h | h | h | h | h | h | h | h <;>
      (subst h; exact hchar _ (Nat.and_le_right))
  rcases hd : (chunk64 (pad256 (strBytes x)).length (pad256 (strBytes x))).foldl compress H0
    with ⟨a, b, c0, d, e, f, g, h⟩
  have : (hash_password x).data =
      wordHex a ++ wordHex b ++ wordHex c0 ++ wordHex d ++
      wordHex e ++ wordHex f ++ wordHex g ++ wordHex h := by
    simp [hash_password, sha256hex, digestHex, hd, List.append_assoc]
  rw [this] at hc
  simp only [List.mem_append] at hc
  rcases hc with ((((((h1 | h1) | h1) | h1) | h1) | h1) | h1) | h1 <;> exact hmem _ h1

/-- Membership in `takeWhile` implies the predicate holds. -/
theorem mem_takeWhile_sat {α : Type} (p : α → Bool) :
    ∀ (l : List α), ∀ x ∈ l.takeWhile p, p x = true := by
  intro l
  induction l with
  | nil => intro x hx; simp [List.takeWhile] at hx
  | cons c cs ih =>
    intro x hx
    by_cases hc : p c = true
    · rw [List.takeWhile_cons, if_pos hc] at hx
      rcases List.mem_cons.mp hx with h | h
      · rwa [h]
      · exact ih x h
    · rw [List.takeWhile_cons, if_neg hc] at hx
      simp at hx

/-- The head of a nonempty `dropWhile` result fails the predicate. -/
theorem dropWhile_head_false {α : Type} (p : α → Bool) :
    ∀ (l : List α) (x : α) (xs : List α), l.dropWhile p = x :: xs → p x = false := by
  intro l
  induction l with
  | nil => intro x xs h; simp [List.dropWhile] at h
  | cons c cs ih =>
    intro x xs h
    by_cases hc : p c = true
    · rw [List.dropWhile_cons, if_pos hc] at h
      exact ih x xs h
    · rw [List.dropWhile_cons, if_neg hc] at h
      cases h
      exact Bool.eq_false_iff.mpr hc

/-- `takeWhile` and `dropWhile` on a list that starts with a satisfying
prefix followed by a failing element. -/
theorem takeWhile_dropWhile_split {α : Type} (p : α → Bool) (y : α) (hy : p y = false) :
    ∀ (l : List α), (∀ x ∈ l, p x = true) →
      ∀ rest : List α,
        (l ++ y :: rest).takeWhile p = l ∧ (l ++ y :: rest).dropWhile p = y :: rest := by
  intro l
  induction l with
  | nil =>
    intro _ rest
    constructor
    · simp [List.takeWhile_cons, hy]
    · simp [List.dropWhile_cons, hy]
  | cons c cs ih =>
    intro hall rest
    have hc : p c = true := hall c (List.mem_cons_self c cs)
    have hcs : ∀ x ∈ cs, p x = true := fun x hx => hall x (List.mem_cons_of_mem c hx)
    constructor
    · simp only [List.cons_append, List.takeWhile_cons, hc, if_pos]
      rw [(ih hcs rest).1]
    · simp only [List.cons_append, List.dropWhile_cons, hc, if_pos]
      exact (ih hcs rest).2

/-- `dropWhile` only removes elements. -/
theorem mem_of_mem_dropWhile {α : Type} (p : α → Bool) :
    ∀ (l : List α) (x : α), x ∈ l.dropWhile p → x ∈ l := by
  intro l
  induction l with
  | nil => intro x hx; simp [List.dropWhile] at hx
  | cons c cs ih =>
    intro x hx
    by_cases hc : p c = true
    · rw [List.dropWhile_cons, if_pos hc] at hx
      exact List.mem_cons_of_mem c (ih x hx)
    · rw [List.dropWhile_cons, if_neg hc] at hx
      exact hx

/-- Stripping only removes characters. -/
theorem mem_of_mem_pyStrip (l : List Char) (c : Char) (h : c ∈ pyStrip l) : c ∈ l := by
  unfold pyStrip at h
  rw [List.mem_reverse] at h
  have h2 := mem_of_mem_dropWhile isPySpace _ c h
  rw [List.mem_reverse] at h2
  exact mem_of_mem_dropWhile isPySpace _ c h2

/-- Boolean emptiness test versus propositional equality with `[]`. -/
theorem isEmpty_false_iff {α : Type} (l : List α) : l.isEmpty = false ↔ l ≠ [] := by
  cases l <;> simp

/-! ## The email matcher agrees with the documented pattern -/

/-- The domain matcher accepts exactly the strings
`domain ++ "." ++ tld` with nonempty `domain` over `[A-Za-z0-9.-]` and an
all-alphabetic `tld` of length at least two. -/
theorem matchDomain_iff (ds : List Char) :
    matchDomain ds = true ↔
      ∃ dom tld : List Char, ds = dom ++ '.' :: tld ∧ dom ≠ [] ∧
        (∀ c ∈ dom, isDomChar c = true) ∧ 2 ≤ tld.length ∧
        ∀ c ∈ tld, c.isAlpha = true := by
  constructor
  · intro h
    unfold matchDomain at h
    rcases hd : ds.reverse.dropWhile (fun c => c != '.') with _ | ⟨x, arev⟩
    · rw [hd] at h; simp at h
    · rw [hd] at h
      simp only [Bool.and_eq_true, Bool.not_eq_true', isEmpty_false_iff,
        List.all_eq_true, decide_eq_true_eq] at h
      obtain ⟨⟨⟨hne, hdom⟩, hlen⟩, halpha⟩ := h
      have hx : x = '.' := by
        have := dropWhile_head_false (fun c => c != '.') ds.reverse x arev hd
        simpa using this
      subst hx
      have hsplit : ds.reverse =
          ds.reverse.takeWhile (fun c => c != '.') ++ '.' :: arev := by
        conv_lhs => rw [← List.takeWhile_append_dropWhile (p := fun c => c != '.') (l := ds.reverse)]
        rw [hd]
      refine ⟨arev.reverse, (ds.reverse.takeWhile (fun c => c != '.')).reverse, ?_, ?_, ?_, ?_, ?_⟩
      · conv_lhs => rw [← List.reverse_reverse ds, hsplit]
        simp
      · simpa using hne
      · intro c hc
        exact hdom c (List.mem_reverse.mp hc)
      · simpa using hlen
      · intro c hc
        exact halpha c (List.mem_reverse.mp hc)
  · rintro ⟨dom, tld, rfl, hne, hdom, hlen, halpha⟩
    have htld : ∀ c ∈ tld.reverse, (c != '.') = true := by
      intro c hc
      have ha := halpha c (List.mem_reverse.mp hc)
      have hcd : c ≠ '.' := by
        intro e; subst e; simp at ha
      simpa using hcd
    have hy : (('.' : Char) != '.') = false := by decide
    have hsplit := takeWhile_dropWhile_split (fun c => c != '.') '.' hy tld.reverse htld dom.reverse
    have hrev : (dom ++ '.' :: tld).reverse = tld.reverse ++ '.' :: dom.reverse := by
      simp
    unfold matchDomain
    rw [hrev, hsplit.2, hsplit.1]
    simp only [Bool.and_eq_true, Bool.not_eq_true', isEmpty_false_iff,
      List.all_eq_true, decide_eq_true_eq]
    refine ⟨⟨⟨?_, ?_⟩, ?_⟩, ?_⟩
    · simpa using hne
    · intro c hc
      exact hdom c (List.mem_reverse.mp hc)
    · simpa using hlen
    · intro c hc
      exact halpha c (List.mem_reverse.mp hc)

/-- The full matcher accepts exactly the documented shape. -/
theorem matchEmail_iff (cs : List Char) : matchEmail cs = true ↔ EmailShape cs := by
  constructor
  · intro h
    unfold matchEmail at h
    rcases hd : cs.dropWhile isLocalChar with _ | ⟨x, rest⟩
    · rw [hd] at h; simp at h
    · rw [hd] at h
      simp only [Bool.and_eq_true, beq_iff_eq, Bool.not_eq_true',
        isEmpty_false_iff] at h
      obtain ⟨⟨hx, hne⟩, hdomain⟩ := h
      subst hx
      have hsplit : cs = cs.takeWhile isLocalChar ++ '@' :: rest := by
        conv_lhs => rw [← List.takeWhile_append_dropWhile (p := isLocalChar) (l := cs)]
        rw [hd]
      rcases (matchDomain_iff rest).mp hdomain with ⟨dom, tld, rfl, h1, h2, h3, h4⟩
      exact ⟨cs.takeWhile isLocalChar, dom, tld, hsplit, hne,
        fun c hc => mem_takeWhile_sat isLocalChar cs c hc, h1, h2, h3, h4⟩
  · rintro ⟨loc, dom, tld, rfl, hne, hloc, h1, h2, h3, h4⟩
    have hy : isLocalChar '@' = false := by decide
    have hsplit := takeWhile_dropWhile_split isLocalChar '@' hy loc hloc (dom ++ '.' :: tld)
    unfold matchEmail
    rw [hsplit.2, hsplit.1]
    simp only [Bool.and_eq_true, beq_iff_eq, Bool.not_eq_true', isEmpty_false_iff]
    refine ⟨⟨?_, hne⟩, (matchDomain_iff _).mpr ⟨dom, tld, rfl, h1, h2, h3, h4⟩⟩
    simp

/-! ## Claim theorems -/

/-- C2. Authentication succeeds iff the role's partition contains a record
matching the supplied email whose stored digest is the hash of the
supplied password; a returned record is such a stored record; and every
failure — unknown email or digest mismatch alike — is the one generic
value `none`. -/
theorem authenticate_user_spec (db : UsersDb) (email password : String) (r : Role) :
    (∀ u, authenticate_user db email password r = some u →
      u ∈ dbPartition db r ∧ u.email = email ∧ u.password = hash_password password) ∧
    (authenticate_user db email password r = none ↔
      ∀ u ∈ dbPartition db r, ¬(u.email = email ∧ u.password = hash_password password)) := by
  constructor
  · intro u hu
    unfold authenticate_user at hu
    have hmem := List.mem_of_find?_eq_some hu
    have hp := List.find?_some hu
    simp only [Bool.and_eq_true, beq_iff_eq] at hp
    exact ⟨hmem, hp.1, hp.2⟩
  · unfold authenticate_user
    rw [List.find?_eq_none]
    constructor
    · intro h u hu hcon
      have := h u hu
      simp only [Bool.and_eq_true, beq_iff_eq] at this
      exact this ⟨hcon.1, hcon.2⟩
    · intro h u hu
      simp only [Bool.and_eq_true, beq_iff_eq]
      intro hcon
      exact h u hu ⟨hcon.1, hcon.2⟩

/-- C2 witness: on a fresh sample store, the demo patient credentials
authenticate and the returned record is stored, with matching digest. -/
theorem authenticate_user_spec_witness :
    johnAccount "t0" ∈ dbPartition (load_sample_data "t0") Role.patient ∧
    (johnAccount "t0").email = "john.doe@example.com" ∧
    (johnAccount "t0").password = hash_password "password123" :=
  (authenticate_user_spec (load_sample_data "t0") "john.doe@example.com" "password123"
      Role.patient).1 (johnAccount "t0") rfl

/-- C4. `save_user_to_db` assigns `user_id` equal to the partition size
plus one, stamps `created_at` with the supplied time, appends the record
to the end of the role's partition (count grows by exactly one, the other
partition is untouched), preserves every submitted field, and returns the
stored record.  It is a total function: it never fails. -/
theorem save_user_to_db_spec (db : UsersDb) (ud : UserData) (r : Role) (now : String) :
    (save_user_to_db db ud r now).2.user_id = (dbPartition db r).length + 1 ∧
    (save_user_to_db db ud r now).2.created_at = now ∧
    dbPartition (save_user_to_db db ud r now).1 r
      = dbPartition db r ++ [(save_user_to_db db ud r now).2] ∧
    dbPartition (save_user_to_db db ud r now).1 r.other = dbPartition db r.other ∧
    (dbPartition (save_user_to_db db ud r now).1 r).length = (dbPartition db r).length + 1 ∧
    (save_user_to_db db ud r now).2.user_type = ud.user_type ∧
    (save_user_to_db db ud r now).2.first_name = ud.first_name ∧
    (save_user_to_db db ud r now).2.last_name = ud.last_name ∧
    (save_user_to_db db ud r now).2.username = ud.username ∧
    (save_user_to_db db ud r now).2.email = ud.email ∧
    (save_user_to_db db ud r now).2.password = ud.password ∧
    (save_user_to_db db ud r now).2.address = ud.address ∧
    (save_user_to_db db ud r now).2.profile_picture = ud.profile_picture := by
  cases r <;> simp [save_user_to_db, dbPartition, setPartition, Role.other]

/-- C4 witness: inserting a record into the fresh sample store assigns
id 2 to it. -/
theorem save_user_to_db_spec_witness :
    (save_user_to_db (load_sample_data "t0") (signupUserData alicePatientSignup)
        Role.patient "t1").2.user_id = 2 := by
  have h := save_user_to_db_spec (load_sample_data "t0") (signupUserData alicePatientSignup)
    Role.patient "t1"
  simpa using h.1

/-- C5 counterexample. The claim says the letter+digit strength policy is
applied in every code path that validates password strength.  But
utils/validators.py (src/utils/val.py) — the validator imported by
src/components/froms.py for its signup validation — rejects
"abc123", a six-character password with letters and digits that the
policy accepts and that src/app.py's validator accepts. -/
theorem password_policy_inconsistent :
    validate_password "abc123" = (true, "Password is valid") ∧
    validators_validate_password "abc123"
      = (false, "Password must contain at least one uppercase letter") := by
  constructor <;> decide

/-- C5 (amended). src/app.py's `validate_password` follows the
letter+digit policy exactly: empty fails with the "required" reason,
length below six fails with the length reason, no ASCII letter fails with
the no-letter reason, no digit fails with the no-digit reason, and every
password of length at least six with a letter and a digit is valid.  (The
policy does NOT extend to every code path: utils/validators.py applies a
stricter one, see the counterexample.) -/
theorem validate_password_letter_digit_policy (p : String) :
    (p = "" → validate_password p = (false, "Password is required")) ∧
    (p ≠ "" → p.length < 6 →
      validate_password p = (false, "Password must be at least 6 characters long")) ∧
    (6 ≤ p.length → (¬∃ c ∈ p.data, c.isAlpha = true) →
      validate_password p = (false, "Password must contain at least one letter")) ∧
    (6 ≤ p.length → (∃ c ∈ p.data, c.isAlpha = true) → (¬∃ c ∈ p.data, c.isDigit = true) →
      validate_password p = (false, "Password must contain at least one number")) ∧
    (6 ≤ p.length → (∃ c ∈ p.data, c.isAlpha = true) → (∃ c ∈ p.data, c.isDigit = true) →
      validate_password p = (true, "Password is valid")) := by
  have hne : 6 ≤ p.length → p ≠ "" := by
    intro h e
    subst e
    exact absurd h (by decide)
  refine ⟨?_, ?_, ?_, ?_, ?_⟩
  · intro h; simp [validate_password, h]
  · intro h1 h2
    rw [validate_password, if_neg h1, if_pos h2]
  · intro h1 h2
    have ha : p.data.any (fun c => c.isAlpha) = false := by
      rw [Bool.eq_false_iff]
      intro hc
      rw [List.any_eq_true] at hc
      exact h2 hc
    simp [validate_password, hne h1, Nat.not_lt.mpr h1, ha]
  · intro h1 h2 h3
    have ha : p.data.any (fun c => c.isAlpha) = true := List.any_eq_true.mpr h2
    have hd : p.data.any (fun c => c.isDigit) = false := by
      rw [Bool.eq_false_iff]
      intro hc
      rw [List.any_eq_true] at hc
      exact h3 hc
    simp [validate_password, hne h1, Nat.not_lt.mpr h1, ha, hd]
  · intro h1 h2 h3
    have ha : p.data.any (fun c => c.isAlpha) = true := List.any_eq_true.mpr h2
    have hd : p.data.any (fun c => c.isDigit) = true := List.any_eq_true.mpr h3
    simp [validate_password, hne h1, Nat.not_lt.mpr h1, ha, hd]

/-- C5 witness: the amended policy at the concrete password "abc123". -/
theorem validate_password_letter_digit_policy_witness :
    validate_password "abc123" = (true, "Password is valid") :=
  (validate_password_letter_digit_policy "abc123").2.2.2.2 (by decide) (by decide) (by decide)

/-- C7 counterexample. `validate_pincode(None)` evaluates
`None.isdigit()`, which raises `AttributeError`: the validator is not
total on null input, contrary to the claim. -/
theorem validate_pincode_none_raises :
    py_validate_pincode none
      = Except.error "AttributeError: NoneType object has no attribute isdigit" := rfl

/-- C7 (amended). On every string input all three validators return
normally, and `validate_email` and `validate_password` also tolerate
`None` (their `if not ...:` guard catches it); but `validate_pincode`
returns normally exactly on non-`None` input — it raises on `None`. -/
theorem validators_total_on_strings (v : Option String) :
    (∃ b, py_validate_email v = Except.ok b) ∧
    (∃ r, py_validate_password v = Except.ok r) ∧
    ((∃ b, py_validate_pincode v = Except.ok b) ↔ v ≠ none) := by
  cases v <;> simp [py_validate_email, py_validate_password, py_validate_pincode]

/-- C7 witness: the amended statement at the concrete input "12345". -/
theorem validators_total_on_strings_witness :
    ∃ b, py_validate_pincode (some "12345") = Except.ok b :=
  (validators_total_on_strings (some "12345")).2.2.mpr (by simp)

/-- `validate_email` as a whole agrees with the documented pattern on the
stripped input. -/
theorem validate_email_iff (s : String) :
    validate_email s = true ↔ EmailShape (pyStrip s.data) := by
  by_cases hs : s = ""
  · subst hs
    rw [validate_email, if_pos rfl]
    constructor
    · intro h; simp at h
    · rintro ⟨loc, dom, tld, heq, hne, -⟩
      have h0 : pyStrip (("" : String).data) = [] := rfl
      rw [h0] at heq
      exact absurd heq.symm (by simp)
  · rw [validate_email, if_neg hs]
    exact matchEmail_iff _

/-- C6. Email validation returns true iff the input, after stripping
surrounding whitespace, has the documented shape
`local-part@domain.tld` (local part over `[A-Za-z0-9._%+-]`, nonempty
domain over `[A-Za-z0-9.-]`, top-level segment of at least two alphabetic
characters); in particular it returns false for inputs with no `@`, for
inputs with no dot, for the empty string, and for a single-character
top-level segment such as "a@b.c". -/
theorem validate_email_spec (s : String) :
    (validate_email s = true ↔ EmailShape (pyStrip s.data)) ∧
    ('@' ∉ s.data → validate_email s = false) ∧
    ('.' ∉ s.data → validate_email s = false) ∧
    validate_email "" = false ∧
    validate_email "a@b.c" = false := by
  refine ⟨validate_email_iff s, ?_, ?_, by decide, by decide⟩
  · intro hat
    cases hb : validate_email s
    · rfl
    · exfalso
      rcases (validate_email_iff s).mp hb with ⟨loc, dom, tld, heq, -, -, -, -, -, -⟩
      have hmem : '@' ∈ pyStrip s.data := by
        rw [heq]; simp
      exact hat (mem_of_mem_pyStrip _ _ hmem)
  · intro hdot
    cases hb : validate_email s
    · rfl
    · exfalso
      rcases (validate_email_iff s).mp hb with ⟨loc, dom, tld, heq, -, -, -, -, -, -⟩
      have hmem : '.' ∈ pyStrip s.data := by
        rw [heq]; simp
      exact hdot (mem_of_mem_pyStrip _ _ hmem)

/-- C6 witness: a string with no dot anywhere is rejected. -/
theorem validate_email_spec_witness : validate_email "nodotshere" = false :=
  (validate_email_spec "nodotshere").2.2.1 (by decide)

/-- `register` in closed form: commit on an empty error list, otherwise
return the errors and the unchanged store. -/
theorem register_eq (db : UsersDb) (f : RawSignup) (now : String) :
    register db f now =
      if signupErrors db f = [] then
        ([], (save_user_to_db db (signupUserData f) f.user_type now).1)
      else (signupErrors db f, db) := by
  by_cases h : signupErrors db f = []
  · simp [register, h]
  · rcases hE : signupErrors db f with _ | ⟨a, l⟩
    · exact absurd hE h
    · simp [register, hE]

/-- An `if` producing an error singleton is empty iff its check passed
(`then []` form). -/
theorem ite_nil_pass (b : Bool) (m : String) :
    ((if b then [] else [m]) = []) ↔ b = true := by
  cases b <;> simp

/-- An `if` producing an error singleton is empty iff its check passed
(`then [m]` form). -/
theorem ite_nil_fail (b : Bool) (m : String) :
    ((if b then [m] else []) = []) ↔ b = false := by
  cases b <;> simp

/-- The collected error list is empty iff every check passes. -/
theorem signupErrors_nil_iff (db : UsersDb) (f : RawSignup) :
    signupErrors db f = [] ↔
      (allFieldsFilled f = true ∧ f.terms_accepted = true ∧ validate_email f.email = true ∧
       f.password = f.confirm_password ∧ (validate_password f.password).1 = true ∧
       (f.pincode = "" ∨ validate_pincode f.pincode = true) ∧
       check_user_exists db f.email f.user_type = false) := by
  unfold signupErrors
  simp only [List.append_eq_nil, ite_nil_pass, ite_nil_fail]
  constructor
  · rintro ⟨⟨⟨⟨⟨⟨h1, h2⟩, h3⟩, h4⟩, h5⟩, h6⟩, h7⟩
    refine ⟨h1, h2, h3, by simpa using h4, h5, ?_, h7⟩
    cases hb : validate_pincode f.pincode
    · left
      rw [hb] at h6
      simpa using h6
    · right; rfl
  · rintro ⟨h1, h2, h3, h4, h5, h6, h7⟩
    refine ⟨⟨⟨⟨⟨⟨h1, h2⟩, h3⟩, by simpa using h4⟩, h5⟩, ?_⟩, h7⟩
    rcases h6 with h6 | h6
    · simp [h6]
    · simp [h6]

/-- C1. Registration is atomic and collects every error: the error list is
empty iff every check passes; a nonempty error list leaves the store
completely unchanged; an empty one appends exactly one record to the
submitting role's partition and touches nothing else; and each failing
check contributes its message to the returned list regardless of the
other checks. -/
theorem register_collects_all_errors_and_is_atomic
    (db : UsersDb) (f : RawSignup) (now : String) :
    ((register db f now).1 = [] ↔
      (allFieldsFilled f = true ∧ f.terms_accepted = true ∧ validate_email f.email = true ∧
       f.password = f.confirm_password ∧ (validate_password f.password).1 = true ∧
       (f.pincode = "" ∨ validate_pincode f.pincode = true) ∧
       check_user_exists db f.email f.user_type = false)) ∧
    ((register db f now).1 ≠ [] → (register db f now).2 = db) ∧
    ((register db f now).1 = [] →
      dbPartition (register db f now).2 f.user_type
        = dbPartition db f.user_type
            ++ [(save_user_to_db db (signupUserData f) f.user_type now).2] ∧
      dbPartition (register db f now).2 f.user_type.other
        = dbPartition db f.user_type.other) ∧
    (allFieldsFilled f = false →
      "All required fields must be filled" ∈ (register db f now).1) ∧
    (f.terms_accepted = false →
      "You must accept the Terms of Service" ∈ (register db f now).1) ∧
    (validate_email f.email = false →
      "Please enter a valid email address" ∈ (register db f now).1) ∧
    (f.password ≠ f.confirm_password → "Passwords do not match" ∈ (register db f now).1) ∧
    ((validate_password f.password).1 = false →
      (validate_password f.password).2 ∈ (register db f now).1) ∧
    (f.pincode ≠ "" → validate_pincode f.pincode = false →
      "Postal code must be 5-6 digits" ∈ (register db f now).1) ∧
    (check_user_exists db f.email f.user_type = true →
      "An account with this email already exists" ∈ (register db f now).1) := by
  have hreg := register_eq db f now
  by_cases hE : signupErrors db f = []
  · rw [hreg, if_pos hE]
    obtain ⟨h1, h2, h3, h4, h5, h6, h7⟩ := (signupErrors_nil_iff db f).mp hE
    refine ⟨iff_of_true rfl ⟨h1, h2, h3, h4, h5, h6, h7⟩, ?_, ?_, ?_, ?_, ?_, ?_, ?_, ?_, ?_⟩
    · intro hne; exact absurd rfl hne
    · intro _
      cases f.user_type <;>
        simp [save_user_to_db, dbPartition, setPartition, Role.other]
    · intro hcon; simp [h1] at hcon
    · intro hcon; simp [h2] at hcon
    · intro hcon; simp [h3] at hcon
    · intro hcon; exact absurd h4 hcon
    · intro hcon; simp [h5] at hcon
    · intro hp hv
      rcases h6 with h6 | h6
      · exact absurd h6 hp
      · simp [h6] at hv
    · intro hcon; simp [h7] at hcon
  · rw [hreg, if_neg hE]
    refine ⟨?_, fun _ => rfl, ?_, ?_, ?_, ?_, ?_, ?_, ?_, ?_⟩
    · exact signupErrors_nil_iff db f
    · intro h0; exact absurd h0 hE
    · intro h; simp [signupErrors, h]
    · intro h; simp [signupErrors, h]
    · intro h; simp [signupErrors, h]
    · intro h; simp [signupErrors, beq_iff_eq, h]
    · intro h; simp [signupErrors, h]
    · intro hp hv; simp [signupErrors, bne_iff_ne, hp, hv]
    · intro h; simp [signupErrors, h]

/-- An invalid submission on the sample store: terms not accepted,
malformed email, mismatched confirmation. -/
def badSignup : RawSignup :=
  ⟨.patient, "A", "B", "ab", "not-an-email", "abc123", "different",
   "1 Elm Street", "Springfield", "IL", "12345", none, false⟩

/-- C1 witness: on the concrete invalid submission, all three failing
checks appear in the returned list at once, and the store is unchanged. -/
theorem register_collects_all_errors_and_is_atomic_witness :
    "You must accept the Terms of Service"
        ∈ (register (load_sample_data "t0") badSignup "t1").1 ∧
    "Please enter a valid email address"
        ∈ (register (load_sample_data "t0") badSignup "t1").1 ∧
    "Passwords do not match" ∈ (register (load_sample_data "t0") badSignup "t1").1 ∧
    (register (load_sample_data "t0") badSignup "t1").2 = load_sample_data "t0" := by
  have h := register_collects_all_errors_and_is_atomic (load_sample_data "t0") badSignup "t1"
  exact ⟨h.2.2.2.2.1 rfl, h.2.2.2.2.2.1 (by decide), h.2.2.2.2.2.2.1 (by decide),
    h.2.1 (by decide)⟩

/-- One successful or failed registration preserves per-partition email
uniqueness: a commit only happens when the duplicate check passed, and the
new record's email is then absent from its partition. -/
theorem register_preserves_EmailUniq (db : UsersDb) (f : RawSignup) (now : String)
    (hu : EmailUniq db) : EmailUniq (register db f now).2 := by
  have hreg := register_eq db f now
  by_cases hE : signupErrors db f = []
  · rw [hreg, if_pos hE]
    obtain ⟨-, -, -, -, -, -, h7⟩ := (signupErrors_nil_iff db f).mp hE
    have hnotin : ∀ u ∈ dbPartition db f.user_type, u.email ≠ f.email := by
      intro u hu2 he
      have hex : check_user_exists db f.email f.user_type = true := by
        unfold check_user_exists
        rw [List.any_eq_true]
        exact ⟨u, hu2, by simp [he]⟩
      simp [hex] at h7
    cases hft : f.user_type
    · rw [hft] at hnotin
      constructor
      · show (db.patients ++ [_]).Pairwise _
        rw [List.pairwise_append]
        refine ⟨hu.1, by simp, ?_⟩
        intro a ha b hb
        simp only [List.mem_singleton] at hb
        subst hb
        exact hnotin a ha
      · exact hu.2
    · rw [hft] at hnotin
      constructor
      · exact hu.1
      · show (db.doctors ++ [_]).Pairwise _
        rw [List.pairwise_append]
        refine ⟨hu.2, by simp, ?_⟩
        intro a ha b hb
        simp only [List.mem_singleton] at hb
        subst hb
        exact hnotin a ha
  · rw [hreg, if_neg hE]
    exact hu

/-- Iterating registrations preserves per-partition email uniqueness. -/
theorem registerAll_preserves_EmailUniq (ops : List (RawSignup × String)) :
    ∀ db : UsersDb, EmailUniq db → EmailUniq (registerAll db ops) := by
  induction ops with
  | nil => intro db hu; exact hu
  | cons op rest ih =>
    intro db hu
    exact ih _ (register_preserves_EmailUniq db op.1 op.2 hu)

/-- C3. Email uniqueness is enforced per role partition only: the
duplicate check sees exactly the submitting role's partition; a duplicate
in that partition makes registration fail with the duplicate error and
leaves the store (hence the count) unchanged; with valid fields and no
duplicate in the submitting role's partition registration succeeds and
grows that partition by one — regardless of the same email existing under
the other role; and every store reachable by register operations from a
store with per-partition unique emails still has per-partition unique
emails. -/
theorem email_uniqueness_role_scoped (db : UsersDb) (f : RawSignup) (now : String)
    (ops : List (RawSignup × String)) :
    (check_user_exists db f.email f.user_type = true ↔
      ∃ u ∈ dbPartition db f.user_type, u.email = f.email) ∧
    (check_user_exists db f.email f.user_type = true →
      "An account with this email already exists" ∈ (register db f now).1 ∧
      (register db f now).2 = db) ∧
    ((allFieldsFilled f = true ∧ f.terms_accepted = true ∧ validate_email f.email = true ∧
      f.password = f.confirm_password ∧ (validate_password f.password).1 = true ∧
      validate_pincode f.pincode = true ∧
      check_user_exists db f.email f.user_type = false) →
      ((register db f now).1 = [] ∧
       (dbPartition (register db f now).2 f.user_type).length
         = (dbPartition db f.user_type).length + 1)) ∧
    (EmailUniq db → EmailUniq (register db f now).2) ∧
    (EmailUniq db → EmailUniq (registerAll db ops)) := by
  refine ⟨?_, ?_, ?_, register_preserves_EmailUniq db f now,
    fun hu => registerAll_preserves_EmailUniq ops db hu⟩
  · unfold check_user_exists
    rw [List.any_eq_true]
    constructor
    · rintro ⟨u, hu, he⟩
      exact ⟨u, hu, by simpa using he⟩
    · rintro ⟨u, hu, he⟩
      exact ⟨u, hu, by simpa using he⟩
  · intro hdup
    have hE : signupErrors db f ≠ [] := by
      intro h0
      have := ((signupErrors_nil_iff db f).mp h0).2.2.2.2.2.2
      simp [hdup] at this
    rw [register_eq db f now, if_neg hE]
    exact ⟨by simp [signupErrors, hdup], rfl⟩
  · rintro ⟨h1, h2, h3, h4, h5, h6, h7⟩
    have hE : signupErrors db f = [] :=
      (signupErrors_nil_iff db f).mpr ⟨h1, h2, h3, h4, h5, Or.inr h6, h7⟩
    rw [register_eq db f now, if_pos hE]
    refine ⟨rfl, ?_⟩
    cases f.user_type <;> simp [save_user_to_db, dbPartition, setPartition]

/-- The cross-role signup reusing the already-registered patient email
under the doctor role. -/
def aliceDoctorSignup : RawSignup :=
  ⟨.doctor, "Alice", "Ayers", "aliceadoc", "alice@mail.com", "abc123", "abc123",
   "1 Elm Street", "Springfield", "IL", "12345", none, true⟩

/-- C3 witness: after registering `alice@mail.com` as a patient, a second
patient registration of the same email fails with the duplicate error,
while a doctor registration with that very email succeeds. -/
theorem email_uniqueness_role_scoped_witness :
    ("An account with this email already exists"
        ∈ (register (register (load_sample_data "t0") alicePatientSignup "t1").2
            alicePatientSignup "t2").1) ∧
    (register (register (load_sample_data "t0") alicePatientSignup "t1").2
        aliceDoctorSignup "t2").1 = [] := by
  refine ⟨((email_uniqueness_role_scoped
      (register (load_sample_data "t0") alicePatientSignup "t1").2
      alicePatientSignup "t2" []).2.1 (by decide)).1, ?_⟩
  exact ((email_uniqueness_role_scoped
      (register (load_sample_data "t0") alicePatientSignup "t1").2
      aliceDoctorSignup "t2" []).2.2.1 (by decide)).1

/-- C9. The session store is not created empty: `load_sample_data`
preloads exactly one sample patient (john.doe@example.com, digest of
"password123", id 1) and one sample doctor (jane.smith@hospital.com,
digest of "doctor123", id 1); both sample credentials authenticate on the
fresh store with no prior registration; and the first registration into
each partition receives id 2, not 1. -/
theorem sample_data_preloaded_spec (now n2 : String) :
    (load_sample_data now).patients.length = 1 ∧
    (load_sample_data now).doctors.length = 1 ∧
    (load_sample_data now).patients = [johnAccount now] ∧
    (load_sample_data now).doctors = [janeAccount now] ∧
    (johnAccount now).email = "john.doe@example.com" ∧
    (johnAccount now).password = hash_password "password123" ∧
    (johnAccount now).user_id = 1 ∧
    (janeAccount now).email = "jane.smith@hospital.com" ∧
    (janeAccount now).password = hash_password "doctor123" ∧
    (janeAccount now).user_id = 1 ∧
    authenticate_user (load_sample_data now) "john.doe@example.com" "password123" .patient
      = some (johnAccount now) ∧
    authenticate_user (load_sample_data now) "jane.smith@hospital.com" "doctor123" .doctor
      = some (janeAccount now) ∧
    (register (load_sample_data now) alicePatientSignup n2).1 = [] ∧
    (register (load_sample_data now) alicePatientSignup n2).2.patients
      = [johnAccount now,
         ⟨.patient, "Alice", "Ayers", "alicea", "alice@mail.com", hash_password "abc123",
          ⟨"1 Elm Street", "Springfield", "IL", "12345"⟩, none, 2, n2⟩] ∧
    (register (load_sample_data now) bobDoctorSignup n2).1 = [] ∧
    (register (load_sample_data now) bobDoctorSignup n2).2.doctors
      = [janeAccount now,
         ⟨.doctor, "Bob", "Barnes", "bobb", "bob@clinic.org", hash_password "xyz789",
          ⟨"2 Oak Avenue", "Madison", "WI", "54321"⟩, none, 2, n2⟩] := by
  exact ⟨rfl, rfl, rfl, rfl, rfl, rfl, rfl, rfl, rfl, rfl, rfl, rfl, rfl, rfl, rfl, rfl⟩

/-- C10. Registration stores the email exactly as submitted while email
validation strips before matching: registering with the whitespace-padded
email "  alice@mail.com  " succeeds and stores that exact string; the
subsequent authentication attempt with the trimmed "alice@mail.com" under
the same role fails; and a subsequent registration of the trimmed form is
not detected as a duplicate — it succeeds and grows the partition again. -/
theorem email_stored_verbatim_scenario (now n2 n3 : String) :
    (register (load_sample_data now) spacedAliceSignup n2).1 = [] ∧
    (register (load_sample_data now) spacedAliceSignup n2).2.patients
      = [johnAccount now,
         ⟨.patient, "Alice", "Ayers", "alicea", "  alice@mail.com  ", hash_password "abc123",
          ⟨"1 Elm Street", "Springfield", "IL", "12345"⟩, none, 2, n2⟩] ∧
    authenticate_user (register (load_sample_data now) spacedAliceSignup n2).2
        "alice@mail.com" "abc123" .patient = none ∧
    check_user_exists (register (load_sample_data now) spacedAliceSignup n2).2
        "alice@mail.com" .patient = false ∧
    (register (register (load_sample_data now) spacedAliceSignup n2).2
        alicePatientSignup n3).1 = [] ∧
    (register (register (load_sample_data now) spacedAliceSignup n2).2
        alicePatientSignup n3).2.patients.length = 3 := by
  exact ⟨rfl, rfl, rfl, rfl, rfl, rfl⟩

end Portal
